import Mathlib

/-!
# Manifest storage and DID router construction of ssi-service

A shallow embedding of `pkg/service/manifest/storage/storage.go` and of the
construction and registry behaviour exercised by `pkg/server/router/did_test.go`.

Conventions of the embedding.

* A Go `error` value is an `Option Error`; `none` is `nil`.
* A Go `[]byte` is a list of byte values, a Go slice of records is a list and the
  `nil` slice is the empty list.
* The store behind `Storage.db` is an interface in Go.  It is embedded as a record of
  functions over an arbitrary state type, so every theorem below that quantifies over
  `ServiceStorage σ` speaks about every implementation of the interface.
* Every operation returns, next to its Go results, the state of the store after the call
  and the trace of what it did: the calls it made on the store and the messages it sent
  to the logger, in program order.
-/

namespace SSI

/-! ## Errors -/

/-- A non-nil Go error: either created from a message (`errors.New`, `fmt.Errorf`) or a
cause annotated with a message (`errors.Wrapf` applied to a non-nil cause). -/
inductive Error where
  | new (msg : String)
  | wrap (cause : Error) (msg : String)
deriving DecidableEq, Repr

/-- A Go `error` interface value; `none` is `nil`. -/
abbrev GoError := Option Error

/-- The method `Error()` of a Go error: the text of the error. -/
def Error.Error : Error → String
  | .new msg => msg
  | .wrap cause msg => msg ++ ": " ++ cause.Error

/-- The function `errors.Wrapf` of `github.com/pkg/errors` with the format already
applied: it annotates a non-nil error with a message, and returns nil when the error
it is given is nil. -/
def errors.Wrapf (err : GoError) (msg : String) : GoError :=
  match err with
  | none => none
  | some e => some (Error.wrap e msg)

/-! ## Bytes, log entries and traces -/

/-- A Go `[]byte`. -/
abbrev Bytes := List Nat

/-- The two logrus levels the storage uses. -/
inductive Level where
  | info
  | error
deriving DecidableEq, Repr

/-- One message sent to logrus: its level, the error attached through `WithError`
(if any) and the message text. -/
structure Entry where
  level : Level
  cause : GoError
  msg : String
deriving DecidableEq, Repr

/-- A call on the underlying `storage.ServiceStorage`. -/
inductive Call where
  | Write (ns key : String) (value : Bytes)
  | Read (ns key : String)
  | ReadAll (ns : String)
  | Delete (ns key : String)
deriving DecidableEq, Repr

/-- One observable step of an operation: a call on the store or a log message. -/
inductive Event where
  | call (c : Call)
  | log (e : Entry)
deriving DecidableEq, Repr

/-- The store calls of a trace, in order. -/
def calls : List Event → List Call
  | [] => []
  | .call c :: t => c :: calls t
  | .log _ :: t => calls t

/-- The log messages of a trace, in order. -/
def logs : List Event → List Entry
  | [] => []
  | .call _ :: t => logs t
  | .log e :: t => e :: logs t

/-- The error-level log messages of a trace, in order. -/
def errorLogs (t : List Event) : List Entry :=
  (logs t).filter (fun e => e.level = Level.error)

/-- The `Write` calls of a trace. -/
def writes (t : List Event) : List Call :=
  (calls t).filter (fun c => match c with
    | .Write _ _ _ => true
    | _ => false)

/-- The namespace a store call addresses. -/
def Call.ns : Call → String
  | .Write ns _ _ => ns
  | .Read ns _ => ns
  | .ReadAll ns => ns
  | .Delete ns _ => ns

/-! ## The underlying store and the JSON codec -/

/-- The interface `storage.ServiceStorage` as the manifest storage uses it.  `Write` and
`Delete` return the state of the store after the call next to their error; `Read` and
`ReadAll` leave the state as it is.  `ReadAll` returns a Go map; the list is the sequence
of key and value pairs in the order in which a `range` over that map visits them. -/
structure ServiceStorage (σ : Type) where
  Write : σ → String → String → Bytes → σ × GoError
  Read : σ → String → String → Bytes × GoError
  ReadAll : σ → String → List (String × Bytes) × GoError
  Delete : σ → String → String → σ × GoError

/-- The functions `json.Marshal` and `json.Unmarshal` of `github.com/goccy/go-json` at
one record type. -/
structure Codec (T : Type) where
  Marshal : T → Except Error Bytes
  Unmarshal : Bytes → Except Error T

/-! ## Records -/

/-- The type `keyaccess.JWT`, a string type. -/
abbrev JWT := String

/-- The type `cred.Container`; its fields play no role in the storage. -/
abbrev Container := String

/-- The SDK type `manifest.CredentialManifest`: its `ID` and, as `Body`, its other fields. -/
structure CredentialManifest where
  ID : String
  Body : String
deriving DecidableEq, Repr

/-- The SDK type `manifest.CredentialApplication`: its `ID` and its other fields. -/
structure CredentialApplication where
  ID : String
  Body : String
deriving DecidableEq, Repr

/-- The SDK type `manifest.CredentialResponse`: its `ID` and its other fields. -/
structure CredentialResponse where
  ID : String
  Body : String
deriving DecidableEq, Repr

structure StoredManifest where
  ID : String
  Issuer : String
  Manifest : CredentialManifest
  ManifestJWT : JWT
deriving DecidableEq, Repr

structure StoredApplication where
  ID : String
  ManifestID : String
  ApplicantDID : String
  Application : CredentialApplication
  Credentials : List Container
  ApplicationJWT : JWT
deriving DecidableEq, Repr

structure StoredResponse where
  ID : String
  ManifestID : String
  ApplicantDID : String
  Response : CredentialResponse
  Credentials : List Container
  ResponseJWT : JWT
deriving DecidableEq, Repr

/-- The codecs of the three record types. -/
structure JSON where
  manifest : Codec StoredManifest
  application : Codec StoredApplication
  response : Codec StoredResponse

def manifestNamespace : String := "manifest"
def applicationNamespace : String := "application"
def responseNamespace : String := "response"

structure Storage (σ : Type) where
  db : ServiceStorage σ

/-- What a call of a storage operation yields: the returned Go values, the state of the
store afterwards and the trace of the call. -/
structure Out (σ α : Type) where
  ret : α
  db : σ
  trace : List Event

/-! ## Logging helpers of `internal/util` -/

/-- Modelled from the spec: the helper `util.LoggingNewError` of `internal/util`, which
is not among the sources.  The spec (section 7) has validation and not-found failures
returned as errors and logged; `StoreManifest` spells the same step out as
`err := errors.New(msg); logrus.WithError(err).Error(); return err`, and the helper is
modelled as exactly these three statements. -/
def util.LoggingNewError (msg : String) : GoError × List Event :=
  let err := Error.new msg
  (some err, [Event.log ⟨Level.error, some err, ""⟩])

/-- Modelled from the spec: the helper `util.LoggingErrorMsg` of `internal/util`, which
is not among the sources.  The spec (section 7) has failures of the store propagated
with context attached and logged; `GetManifest` spells the same step out as
`logrus.WithError(err).Error(errMsg); return errors.Wrapf(err, errMsg)`, and the helper
is modelled as exactly these two statements. -/
def util.LoggingErrorMsg (err : GoError) (msg : String) : GoError × List Event :=
  (errors.Wrapf err msg, [Event.log ⟨Level.error, err, msg⟩])

def NewManifestStorage {σ : Type} (db : Option (ServiceStorage σ)) : Option (Storage σ) × GoError :=
  match db with
  | none => (none, some (Error.new "bolt db reference is nil"))
  | some d => (some ⟨d⟩, none)

/-! ## Manifests -/

def Storage.StoreManifest {σ : Type} (json : JSON) (ms : Storage σ) (manifest : StoredManifest)
    (s : σ) : Out σ GoError :=
  let id := manifest.Manifest.ID
  if id = "" then
    let err := Error.new "could not store manifest without an ID"
    ⟨some err, s, [Event.log ⟨Level.error, some err, ""⟩]⟩
  else
    match json.manifest.Marshal manifest with
    | .error err =>
      let errMsg := "could not store manifest: " ++ id
      ⟨errors.Wrapf (some err) errMsg, s, [Event.log ⟨Level.error, some err, errMsg⟩]⟩
    | .ok manifestBytes =>
      let w := ms.db.Write s manifestNamespace id manifestBytes
      ⟨w.2, w.1, [Event.call (Call.Write manifestNamespace id manifestBytes)]⟩

def Storage.GetManifest {σ : Type} (json : JSON) (ms : Storage σ) (id : String)
    (s : σ) : Out σ (Option StoredManifest × GoError) :=
  let r := ms.db.Read s manifestNamespace id
  let t := [Event.call (Call.Read manifestNamespace id)]
  match r.2 with
  | some err =>
    let errMsg := "could not get manifest: " ++ id
    ⟨(none, errors.Wrapf (some err) errMsg), s, t ++ [Event.log ⟨Level.error, some err, errMsg⟩]⟩
  | none =>
    if r.1.length = 0 then
      let err := Error.new ("manifest not found with id: " ++ id)
      ⟨(none, some err), s,
        t ++ [Event.log ⟨Level.error, some err, "could not get manifest from storage"⟩]⟩
    else
      match json.manifest.Unmarshal r.1 with
      | .error err =>
        let errMsg := "could not unmarshal stored manifest: " ++ id
        ⟨(none, errors.Wrapf (some err) errMsg), s,
          t ++ [Event.log ⟨Level.error, some err, errMsg⟩]⟩
      | .ok stored => ⟨(some stored, none), s, t⟩

/-- The body of the `range` loop of `GetManifests`, run over the entries in the order of
the iteration: an entry that decodes is appended to `stored`, any other entry is passed
over in silence. -/
def Storage.GetManifests.loop (json : JSON) :
    List (String × Bytes) → List StoredManifest × List Event → List StoredManifest × List Event
  | [], acc => acc
  | (_, manifestBytes) :: rest, (stored, t) =>
    match json.manifest.Unmarshal manifestBytes with
    | .ok nextManifest => Storage.GetManifests.loop json rest (stored ++ [nextManifest], t)
    | .error _ => Storage.GetManifests.loop json rest (stored, t)

/-- GetManifests attempts to get all stored manifests. It will return those it can even if
it has trouble with some. -/
def Storage.GetManifests {σ : Type} (json : JSON) (ms : Storage σ)
    (s : σ) : Out σ (List StoredManifest × GoError) :=
  let r := ms.db.ReadAll s manifestNamespace
  let t := [Event.call (Call.ReadAll manifestNamespace)]
  match r.2 with
  | some err =>
    let errMsg := "could not get all manifests"
    ⟨([], errors.Wrapf (some err) errMsg), s, t ++ [Event.log ⟨Level.error, some err, errMsg⟩]⟩
  | none =>
    if r.1.length = 0 then
      ⟨([], none), s, t ++ [Event.log ⟨Level.info, none, "no manifests to get"⟩]⟩
    else
      let l := Storage.GetManifests.loop json r.1 ([], t)
      ⟨(l.1, none), s, l.2⟩

def Storage.DeleteManifest {σ : Type} (ms : Storage σ) (id : String) (s : σ) : Out σ GoError :=
  let d := ms.db.Delete s manifestNamespace id
  let t := [Event.call (Call.Delete manifestNamespace id)]
  match d.2 with
  | some err =>
    let e := util.LoggingErrorMsg (some err) ("could not delete manifest: " ++ id)
    ⟨e.1, d.1, t ++ e.2⟩
  | none => ⟨none, d.1, t⟩

/-! ## Applications -/

def Storage.StoreApplication {σ : Type} (json : JSON) (ms : Storage σ)
    (application : StoredApplication) (s : σ) : Out σ GoError :=
  let id := application.Application.ID
  if id = "" then
    let e := util.LoggingNewError "could not store application without an ID"
    ⟨e.1, s, e.2⟩
  else
    match json.application.Marshal application with
    | .error err =>
      let e := util.LoggingErrorMsg (some err) ("could not store application: " ++ id)
      ⟨e.1, s, e.2⟩
    | .ok applicationBytes =>
      let w := ms.db.Write s applicationNamespace id applicationBytes
      ⟨w.2, w.1, [Event.call (Call.Write applicationNamespace id applicationBytes)]⟩

def Storage.GetApplication {σ : Type} (json : JSON) (ms : Storage σ) (id : String)
    (s : σ) : Out σ (Option StoredApplication × GoError) :=
  let r := ms.db.Read s applicationNamespace id
  let t := [Event.call (Call.Read applicationNamespace id)]
  match r.2 with
  | some err =>
    let e := util.LoggingErrorMsg (some err) ("could not get application: " ++ id)
    ⟨(none, e.1), s, t ++ e.2⟩
  | none =>
    if r.1.length = 0 then
      let e := util.LoggingNewError
        ("could not get application from storage; application not found with id: " ++ id)
      ⟨(none, e.1), s, t ++ e.2⟩
    else
      match json.application.Unmarshal r.1 with
      | .error err =>
        let e := util.LoggingErrorMsg (some err) ("could not unmarshal stored application: " ++ id)
        ⟨(none, e.1), s, t ++ e.2⟩
      | .ok stored => ⟨(some stored, none), s, t⟩

/-- The body of the `range` loop of `GetApplications`, run over the entries in the order
of the iteration: an entry that decodes is appended to `stored`, any other entry is
logged at error level with its key and the decode error. -/
def Storage.GetApplications.loop (json : JSON) :
    List (String × Bytes) → List StoredApplication × List Event →
      List StoredApplication × List Event
  | [], acc => acc
  | (appKey, applicationBytes) :: rest, (stored, t) =>
    match json.application.Unmarshal applicationBytes with
    | .ok nextApplication =>
      Storage.GetApplications.loop json rest (stored ++ [nextApplication], t)
    | .error err =>
      Storage.GetApplications.loop json rest
        (stored, t ++ [Event.log ⟨Level.error, some err,
          "could not unmarshal stored application: " ++ appKey⟩])

/-- GetApplications attempts to get all stored applications. It will return those it can
even if it has trouble with some. -/
def Storage.GetApplications {σ : Type} (json : JSON) (ms : Storage σ)
    (s : σ) : Out σ (List StoredApplication × GoError) :=
  let r := ms.db.ReadAll s applicationNamespace
  let t := [Event.call (Call.ReadAll applicationNamespace)]
  match r.2 with
  | some err =>
    let e := util.LoggingErrorMsg (some err) "could not get all applications"
    ⟨([], e.1), s, t ++ e.2⟩
  | none =>
    if r.1.length = 0 then
      ⟨([], none), s, t ++ [Event.log ⟨Level.info, none, "no applications to get"⟩]⟩
    else
      let l := Storage.GetApplications.loop json r.1 ([], t)
      ⟨(l.1, none), s, l.2⟩

def Storage.DeleteApplication {σ : Type} (ms : Storage σ) (id : String) (s : σ) : Out σ GoError :=
  let d := ms.db.Delete s applicationNamespace id
  let t := [Event.call (Call.Delete applicationNamespace id)]
  match d.2 with
  | some err =>
    let e := util.LoggingErrorMsg (some err) ("could not delete application: " ++ id)
    ⟨e.1, d.1, t ++ e.2⟩
  | none => ⟨none, d.1, t⟩

/-! ## Responses -/

def Storage.StoreResponse {σ : Type} (json : JSON) (ms : Storage σ)
    (response : StoredResponse) (s : σ) : Out σ GoError :=
  let id := response.Response.ID
  if id = "" then
    let e := util.LoggingNewError "could not store response without an ID"
    ⟨e.1, s, e.2⟩
  else
    match json.response.Marshal response with
    | .error err =>
      let e := util.LoggingErrorMsg (some err) ("could not store response: " ++ id)
      ⟨e.1, s, e.2⟩
    | .ok responseBytes =>
      let w := ms.db.Write s responseNamespace id responseBytes
      ⟨w.2, w.1, [Event.call (Call.Write responseNamespace id responseBytes)]⟩

/-- In the zero-length branch the variable `err` handed to the helper is the error of
the `Read`, which is nil there. -/
def Storage.GetResponse {σ : Type} (json : JSON) (ms : Storage σ) (id : String)
    (s : σ) : Out σ (Option StoredResponse × GoError) :=
  let r := ms.db.Read s responseNamespace id
  let t := [Event.call (Call.Read responseNamespace id)]
  match r.2 with
  | some err =>
    let e := util.LoggingErrorMsg (some err) ("could not get response: " ++ id)
    ⟨(none, e.1), s, t ++ e.2⟩
  | none =>
    if r.1.length = 0 then
      let e := util.LoggingErrorMsg r.2 ("response not found with id: " ++ id)
      ⟨(none, e.1), s, t ++ e.2⟩
    else
      match json.response.Unmarshal r.1 with
      | .error err =>
        let e := util.LoggingErrorMsg (some err) ("could not unmarshal stored response: " ++ id)
        ⟨(none, e.1), s, t ++ e.2⟩
      | .ok stored => ⟨(some stored, none), s, t⟩

/-- The body of the `range` loop of `GetResponses`, run over the entries in the order of
the iteration: an entry that decodes is appended to `stored`, any other entry is logged
at error level with its key and the decode error. -/
def Storage.GetResponses.loop (json : JSON) :
    List (String × Bytes) → List StoredResponse × List Event →
      List StoredResponse × List Event
  | [], acc => acc
  | (responseKey, responseBytes) :: rest, (stored, t) =>
    match json.response.Unmarshal responseBytes with
    | .ok nextResponse =>
      Storage.GetResponses.loop json rest (stored ++ [nextResponse], t)
    | .error err =>
      Storage.GetResponses.loop json rest
        (stored, t ++ [Event.log ⟨Level.error, some err,
          "could not unmarshal stored response: " ++ responseKey⟩])

/-- GetResponses attempts to get all stored responses. It will return those it can even if
it has trouble with some. -/
def Storage.GetResponses {σ : Type} (json : JSON) (ms : Storage σ)
    (s : σ) : Out σ (List StoredResponse × GoError) :=
  let r := ms.db.ReadAll s responseNamespace
  let t := [Event.call (Call.ReadAll responseNamespace)]
  match r.2 with
  | some err =>
    let e := util.LoggingErrorMsg (some err) "could not get all responses"
    ⟨([], e.1), s, t ++ e.2⟩
  | none =>
    if r.1.length = 0 then
      ⟨([], none), s, t ++ [Event.log ⟨Level.info, none, "no responses to get"⟩]⟩
    else
      let l := Storage.GetResponses.loop json r.1 ([], t)
      ⟨(l.1, none), s, l.2⟩

def Storage.DeleteResponse {σ : Type} (ms : Storage σ) (id : String) (s : σ) : Out σ GoError :=
  let d := ms.db.Delete s responseNamespace id
  let t := [Event.call (Call.Delete responseNamespace id)]
  match d.2 with
  | some err =>
    let e := util.LoggingErrorMsg (some err) ("could not delete response: " ++ id)
    ⟨e.1, d.1, t ++ e.2⟩
  | none => ⟨none, d.1, t⟩

/-! ## A concrete store and a concrete codec -/

/-- Modelled from the spec: the namespaced key-value store of section 4.1 (the package
`pkg/storage` is not among the sources).  The state is the list of the entries, each a
namespace and key with the bytes stored under them, at most one entry per namespace and
key.  `Write` overwrites, `Read` of an absent key returns zero bytes and no error,
`ReadAll` of a namespace without entries returns the empty mapping and no error, and
`Delete` of an absent key is not an error. -/
abbrev MapDB := List ((String × String) × Bytes)

/-- The operations of the store of section 4.1 on `MapDB`. -/
def MapDB.store : ServiceStorage MapDB where
  Write s ns key value := (s.filter (fun e => decide (e.1 ≠ (ns, key))) ++ [((ns, key), value)], none)
  Read s ns key :=
    (match s.find? (fun e => decide (e.1 = (ns, key))) with
      | some e => e.2
      | none => [], none)
  ReadAll s ns := ((s.filter (fun e => decide (e.1.1 = ns))).map (fun e => (e.1.2, e.2)), none)
  Delete s ns key := (s.filter (fun e => decide (e.1 ≠ (ns, key))), none)

/-- A string as bytes: its length, then its characters. -/
def putString (s : String) : Bytes :=
  s.length :: s.data.map Char.toNat

/-- Reads back a string written by `putString` and returns the bytes after it. -/
def getString : Bytes → Option (String × Bytes)
  | [] => none
  | n :: rest =>
    if rest.length < n then none
    else some (String.mk ((rest.take n).map Char.ofNat), rest.drop n)

/-- A list of strings as bytes: its length, then its strings. -/
def putStrings (l : List String) : Bytes :=
  l.length :: (l.map putString).flatten

/-- Reads `n` strings. -/
def getStringsN : Nat → Bytes → Option (List String × Bytes)
  | 0, b => some ([], b)
  | n + 1, b =>
    match getString b with
    | none => none
    | some (x, b1) =>
      match getStringsN n b1 with
      | none => none
      | some (xs, b2) => some (x :: xs, b2)

/-- Reads back a list written by `putStrings`. -/
def getStrings : Bytes → Option (List String × Bytes)
  | [] => none
  | n :: rest => getStringsN n rest

/-- The decode error of the concrete codec. -/
def malformed : Error := Error.new "unexpected end of JSON input"

/-- A length-prefixed codec for the three record types: a stand-in for the JSON library
with the two properties the storage relies on, that decoding undoes encoding and that
bytes which are no encoding are rejected. -/
def lengthPrefixed : JSON where
  manifest :=
    { Marshal := fun m => .ok (putString m.ID ++ putString m.Issuer ++ putString m.Manifest.ID
        ++ putString m.Manifest.Body ++ putString m.ManifestJWT)
      Unmarshal := fun b =>
        match getStringsN 5 b with
        | some ([a, i, mi, mb, j], []) => .ok ⟨a, i, ⟨mi, mb⟩, j⟩
        | _ => .error malformed }
  application :=
    { Marshal := fun a => .ok (putString a.ID ++ putString a.ManifestID ++ putString a.ApplicantDID
        ++ putString a.Application.ID ++ putString a.Application.Body
        ++ putString a.ApplicationJWT ++ putStrings a.Credentials)
      Unmarshal := fun b =>
        match getStringsN 6 b with
        | some ([a, m, d, ai, ab, j], rest) =>
          match getStrings rest with
          | some (cs, []) => .ok ⟨a, m, d, ⟨ai, ab⟩, cs, j⟩
          | _ => .error malformed
        | _ => .error malformed }
  response :=
    { Marshal := fun a => .ok (putString a.ID ++ putString a.ManifestID ++ putString a.ApplicantDID
        ++ putString a.Response.ID ++ putString a.Response.Body
        ++ putString a.ResponseJWT ++ putStrings a.Credentials)
      Unmarshal := fun b =>
        match getStringsN 6 b with
        | some ([a, m, d, ai, ab, j], rest) =>
          match getStrings rest with
          | some (cs, []) => .ok ⟨a, m, d, ⟨ai, ab⟩, cs, j⟩
          | _ => .error malformed
        | _ => .error malformed }

/-- The manifest storage over the concrete store. -/
def mapStorage : Storage MapDB := ⟨MapDB.store⟩

/-! ## The four operations by record kind -/

/-- The three record kinds of the manifest storage. -/
inductive Kind where
  | manifest
  | application
  | response
deriving DecidableEq, Repr

/-- The namespace of a record kind. -/
def Kind.ns : Kind → String
  | .manifest => manifestNamespace
  | .application => applicationNamespace
  | .response => responseNamespace

/-- The stored record type of a record kind. -/
def Kind.Record : Kind → Type
  | .manifest => StoredManifest
  | .application => StoredApplication
  | .response => StoredResponse

/-- The top-level `ID` field of a stored record. -/
def Kind.ownID : (k : Kind) → k.Record → String
  | .manifest => fun (r : StoredManifest) => r.ID
  | .application => fun (r : StoredApplication) => r.ID
  | .response => fun (r : StoredResponse) => r.ID

/-- The `ID` of the document embedded in a stored record: `Manifest.ID`,
`Application.ID`, `Response.ID`. -/
def Kind.embeddedID : (k : Kind) → k.Record → String
  | .manifest => fun (r : StoredManifest) => r.Manifest.ID
  | .application => fun (r : StoredApplication) => r.Application.ID
  | .response => fun (r : StoredResponse) => r.Response.ID

/-- The record with its top-level `ID` field replaced. -/
def Kind.withOwnID : (k : Kind) → k.Record → String → k.Record
  | .manifest => fun (r : StoredManifest) x => { r with ID := x }
  | .application => fun (r : StoredApplication) x => { r with ID := x }
  | .response => fun (r : StoredResponse) x => { r with ID := x }

/-- The codec of a record kind. -/
def JSON.codec (json : JSON) : (k : Kind) → Codec k.Record
  | .manifest => json.manifest
  | .application => json.application
  | .response => json.response

/-- The missing-ID error of `Store` for a record kind. -/
def Kind.missingID : Kind → Error
  | .manifest => Error.new "could not store manifest without an ID"
  | .application => Error.new "could not store application without an ID"
  | .response => Error.new "could not store response without an ID"

/-- `Store` of section 4.2: `StoreManifest`, `StoreApplication`, `StoreResponse`. -/
def Storage.Store {σ : Type} (json : JSON) (ms : Storage σ) :
    (k : Kind) → k.Record → σ → Out σ GoError
  | .manifest => ms.StoreManifest json
  | .application => ms.StoreApplication json
  | .response => ms.StoreResponse json

/-- `Get` of section 4.2: `GetManifest`, `GetApplication`, `GetResponse`. -/
def Storage.Get {σ : Type} (json : JSON) (ms : Storage σ) :
    (k : Kind) → String → σ → Out σ (Option k.Record × GoError)
  | .manifest => ms.GetManifest json
  | .application => ms.GetApplication json
  | .response => ms.GetResponse json

/-- `GetAll` of section 4.2: `GetManifests`, `GetApplications`, `GetResponses`. -/
def Storage.GetAll {σ : Type} (json : JSON) (ms : Storage σ) :
    (k : Kind) → σ → Out σ (List k.Record × GoError)
  | .manifest => ms.GetManifests json
  | .application => ms.GetApplications json
  | .response => ms.GetResponses json

/-- `Delete` of section 4.2: `DeleteManifest`, `DeleteApplication`, `DeleteResponse`. -/
def Storage.Delete {σ : Type} (ms : Storage σ) : Kind → String → σ → Out σ GoError
  | .manifest => ms.DeleteManifest
  | .application => ms.DeleteApplication
  | .response => ms.DeleteResponse

/-- The values an entry list decodes to: the decoded value of every entry whose bytes
deserialize, in the order of the entries; an entry whose bytes do not deserialize
contributes nothing. -/
def decoded {T : Type} (c : Codec T) (entries : List (String × Bytes)) : List T :=
  entries.filterMap (fun e =>
    match c.Unmarshal e.2 with
    | .ok v => some v
    | .error _ => none)

/-- The entries whose bytes do not deserialize: the entries a bulk read skips. -/
def skipped {T : Type} (c : Codec T) (entries : List (String × Bytes)) : List (String × Bytes) :=
  entries.filter (fun e =>
    match c.Unmarshal e.2 with
    | .ok _ => false
    | .error _ => true)

/-- A store that behaves as a map: a `Write` succeeds and a `Read` of the namespace and
key just written returns the bytes written. -/
def BehavesAsMap {σ : Type} (db : ServiceStorage σ) : Prop :=
  ∀ s ns key value,
    (db.Write s ns key value).2 = none ∧ db.Read (db.Write s ns key value).1 ns key = (value, none)

/-- A store whose namespaces are partitions: a `Write` or `Delete` in one namespace
changes the result of no `Read` or `ReadAll` in another. -/
def NamespaceLocal {σ : Type} (db : ServiceStorage σ) : Prop :=
  ∀ s ns key ns', ns' ≠ ns →
    (∀ value key', db.Read (db.Write s ns key value).1 ns' key' = db.Read s ns' key') ∧
    (∀ value, db.ReadAll (db.Write s ns key value).1 ns' = db.ReadAll s ns') ∧
    (∀ key', db.Read (db.Delete s ns key).1 ns' key' = db.Read s ns' key') ∧
    db.ReadAll (db.Delete s ns key).1 ns' = db.ReadAll s ns'

/-- A store with the delete of section 4.1: `Delete` returns no error, and a `Read` of the
deleted key then returns zero bytes and no error. -/
def DeletesIdempotently {σ : Type} (db : ServiceStorage σ) : Prop :=
  ∀ s ns key, (db.Delete s ns key).2 = none ∧ db.Read (db.Delete s ns key).1 ns key = ([], none)

/-- The log message `GetApplications` emits for a skipped entry. -/
def applicationSkipEntry (c : Codec StoredApplication) (e : String × Bytes) : Entry :=
  match c.Unmarshal e.2 with
  | .ok _ => ⟨Level.error, none, "could not unmarshal stored application: " ++ e.1⟩
  | .error err => ⟨Level.error, some err, "could not unmarshal stored application: " ++ e.1⟩

/-- The log message `GetResponses` emits for a skipped entry. -/
def responseSkipEntry (c : Codec StoredResponse) (e : String × Bytes) : Entry :=
  match c.Unmarshal e.2 with
  | .ok _ => ⟨Level.error, none, "could not unmarshal stored response: " ++ e.1⟩
  | .error err => ⟨Level.error, some err, "could not unmarshal stored response: " ++ e.1⟩

/-! ## Sample records -/

def sampleManifest : StoredManifest := ⟨"", "did:key:issuer", ⟨"m1", "body"⟩, "jwt"⟩
def sampleApplication : StoredApplication := ⟨"a0", "m1", "did:key:alice", ⟨"a1", "body"⟩, ["vc"], "jwt"⟩
def sampleResponse : StoredResponse := ⟨"r1", "m1", "did:key:alice", ⟨"r1", "body"⟩, [], "jwt"⟩

/-- A state of the concrete store with one entry of malformed bytes under the key "bad" in
each of the three namespaces and, written by `StoreManifest`, `sampleManifest`. -/
def corruptDB : MapDB :=
  (mapStorage.StoreManifest lengthPrefixed sampleManifest
    [(("manifest", "bad"), [99]), (("application", "bad"), [99]), (("response", "bad"), [99])]).db

/-- A state of the concrete store that holds `sampleResponse`, written by `StoreResponse`. -/
def responseDB : MapDB :=
  (mapStorage.StoreResponse lengthPrefixed sampleResponse []).db

/-! ## The DID service registry and the DID router -/

/-- The check of `assert.Contains` on strings: `substr` occurs in `s`. -/
def Contains (s substr : String) : Prop :=
  substr.data <:+: s.data

instance (s substr : String) : Decidable (Contains s substr) := by
  unfold Contains
  infer_instance

/-- The type `framework.Type`, a string type. -/
abbrev ServiceType := String

/-- The declared type of the DID service. -/
def framework.DID : ServiceType := "DID"

/-- The type `framework.Status`. -/
structure Status where
  Status : String
  Message : String
deriving DecidableEq, Repr

def framework.StatusReady : String := "ready"

/-- The type `did.Method`, a string type. -/
abbrev Method := String

def KeyMethod : Method := "key"

/-- Modelled from the spec: a method handler of section 3 (the package `pkg/service/did`
is not among the sources), bound to exactly one method name at registration time. -/
structure MethodHandler where
  method : Method
deriving DecidableEq, Repr

/-- Modelled from the spec: the DID service of sections 3 and 4.3 (the package
`pkg/service/did` is not among the sources).  It owns the registry, one handler per
registered method name, in the order of registration. -/
structure DIDService where
  handlers : List (Method × MethodHandler)
deriving DecidableEq, Repr

/-- Modelled from the spec: `Register` of section 4.3, called only during construction.
A second registration for a name already registered is a configuration error. -/
def DIDService.register (svc : DIDService) (m : Method) : Option DIDService × GoError :=
  if svc.handlers.any (fun e => e.1 == m) then
    (none, some (Error.new ("duplicate DID method: " ++ m)))
  else
    (some ⟨svc.handlers ++ [(m, ⟨m⟩)]⟩, none)

/-- Registers the methods one after the other and stops at the first failure. -/
def DIDService.registerAll : DIDService → List Method → Option DIDService × GoError
  | svc, [] => (some svc, none)
  | svc, m :: rest =>
    match svc.register m with
    | (some svc1, _) => DIDService.registerAll svc1 rest
    | (none, err) => (none, err)

/-- Modelled from the spec: `did.NewDIDService` (the package `pkg/service/did` is not
among the sources; the logger and the store it is given play no role in the registry).
Section 4.3 has the registry populated once at construction, a duplicate registration
a construction error, and a service with zero supported methods a construction error. -/
def NewDIDService (methods : List Method) : Option DIDService × GoError :=
  if methods = [] then
    (none, some (Error.new "could not instantiate DID service without methods"))
  else
    DIDService.registerAll ⟨[]⟩ methods

/-- The method `Type()` of the DID service. -/
def DIDService.declaredType (_ : DIDService) : ServiceType := framework.DID

def DIDService.Status (_ : DIDService) : Status := ⟨framework.StatusReady, ""⟩

/-- Modelled from the spec: `Resolve` of section 4.3, in the test `GetHandler`.  It
returns the handler registered for the method; for a method without a handler it fails
with an error that names the method, and returns no handler. -/
def DIDService.GetHandler (svc : DIDService) (method : Method) : Option MethodHandler × GoError :=
  match svc.handlers.find? (fun e => e.1 == method) with
  | some e => (some e.2, none)
  | none => (none, some (Error.new ("could not get handler for DID method: " ++ method)))

/-- Modelled from the spec: `SupportedMethods` of section 4.3, in the test
`GetSupportedMethods`: the complete list of registered names. -/
def DIDService.GetSupportedMethods (svc : DIDService) : List Method :=
  svc.handlers.map (fun e => e.1)

/-- A value of the interface `framework.Service` as the router constructor sees it: what
its `Type()` and `Status()` return and, when the object is a DID service, that service
(the result of the conversion of section 9, `asHandlerProvider`). -/
structure Service where
  declaredType : ServiceType
  Status : Status
  asHandlerProvider : Option DIDService
deriving DecidableEq, Repr

/-- The `testService` of the router test: its `Type()` is "test", its status "ready", and
it is no DID service. -/
def testService : Service := ⟨"test", ⟨"ready", ""⟩, none⟩

/-- A DID service as a value of the interface `framework.Service`. -/
def DIDService.toService (svc : DIDService) : Service := ⟨svc.declaredType, svc.Status, some svc⟩

/-- The router over a DID service. -/
structure DIDRouter where
  service : DIDService
deriving DecidableEq, Repr

/-- Modelled from the spec: `NewDIDRouter` (the file `pkg/server/router/did.go` is not
among the sources; the logger it is given plays no role).  Section 4.4: for a nil
service construction fails with an error stating that the service is required; for a
service whose declared type is not the expected one, or which does not have the
capability set of a DID service, it fails with an error naming the declared type; no
router is returned on failure. -/
def NewDIDRouter (s : Option Service) : Option DIDRouter × GoError :=
  match s with
  | none => (none, some (Error.new "service cannot be nil"))
  | some svc =>
    if svc.declaredType ≠ framework.DID then
      (none, some (Error.new ("could not create DID router with service type: " ++ svc.declaredType)))
    else
      match svc.asHandlerProvider with
      | none =>
        (none, some (Error.new ("could not create DID router with service type: " ++ svc.declaredType)))
      | some didService => (some ⟨didService⟩, none)

/-! ## Store: rejection and keying -/

/-- With an empty embedded ID every `Store` returns its missing-ID error, calls nothing on
the store and leaves the state of the store as it was. -/
theorem Store_of_empty_id {σ : Type} (json : JSON) (ms : Storage σ) (k : Kind) (r : k.Record)
    (s : σ) (h : k.embeddedID r = "") :
    (ms.Store json k r s).ret = some k.missingID ∧ calls (ms.Store json k r s).trace = []
      ∧ (ms.Store json k r s).db = s := by
  cases k <;>
    simp_all [Kind.embeddedID, Storage.Store, Storage.StoreManifest, Storage.StoreApplication,
      Storage.StoreResponse, Kind.missingID, util.LoggingNewError, calls]

/-- With a non-empty embedded ID and a failing serialization every `Store` returns an
error that wraps the cause, calls nothing on the store and leaves its state as it was. -/
theorem Store_of_marshal_error {σ : Type} (json : JSON) (ms : Storage σ) (k : Kind)
    (r : k.Record) (s : σ) (e : Error) (h : k.embeddedID r ≠ "")
    (hm : (json.codec k).Marshal r = .error e) :
    (∃ msg, (ms.Store json k r s).ret = some (Error.wrap e msg))
      ∧ calls (ms.Store json k r s).trace = [] ∧ (ms.Store json k r s).db = s := by
  cases k <;>
    simp_all [Kind.embeddedID, Storage.Store, Storage.StoreManifest, Storage.StoreApplication,
      Storage.StoreResponse, JSON.codec, util.LoggingErrorMsg, errors.Wrapf, calls]

/-- With a non-empty embedded ID and a successful serialization every `Store` makes one
call on the store, the `Write` of the serialized record under the embedded ID in the
namespace of the kind, and returns what that `Write` returns. -/
theorem Store_of_marshal_ok {σ : Type} (json : JSON) (ms : Storage σ) (k : Kind)
    (r : k.Record) (s : σ) (b : Bytes) (h : k.embeddedID r ≠ "")
    (hm : (json.codec k).Marshal r = .ok b) :
    (ms.Store json k r s).ret = (ms.db.Write s k.ns (k.embeddedID r) b).2
      ∧ (ms.Store json k r s).trace = [Event.call (Call.Write k.ns (k.embeddedID r) b)]
      ∧ (ms.Store json k r s).db = (ms.db.Write s k.ns (k.embeddedID r) b).1 := by
  cases k <;>
    simp_all [Kind.embeddedID, Storage.Store, Storage.StoreManifest, Storage.StoreApplication,
      Storage.StoreResponse, JSON.codec, Kind.ns]

/-- The embedded ID of a record does not depend on its top-level ID field. -/
theorem embeddedID_withOwnID (k : Kind) (r : k.Record) (x : String) :
    k.embeddedID (k.withOwnID r x) = k.embeddedID r := by
  cases k <;> rfl

/-- Claim C1, as amended: for every record kind, every record whose embedded document ID
(`Manifest.ID`, `Application.ID`, `Response.ID`) is empty, every codec, every store and
every state of it, `Store` returns a non-nil error, makes no call on the store (so no
`Write`), and the state of the store afterwards is the state before. -/
theorem C1_store_rejects_empty_embedded_id {σ : Type} (json : JSON) (ms : Storage σ) (k : Kind)
    (r : k.Record) (s : σ) (h : k.embeddedID r = "") :
    (ms.Store json k r s).ret ≠ none ∧ calls (ms.Store json k r s).trace = []
      ∧ writes (ms.Store json k r s).trace = [] ∧ (ms.Store json k r s).db = s := by
  obtain ⟨h1, h2, h3⟩ := Store_of_empty_id json ms k r s h
  refine ⟨by simp [h1], h2, by simp [writes, h2], h3⟩

/-- A use of C1 as amended: a manifest record with a non-empty top-level ID and an empty
`Manifest.ID` is rejected by `StoreManifest` over the concrete store, which stays empty. -/
theorem C1_store_rejects_empty_embedded_id_witness :
    Kind.embeddedID Kind.manifest ({ sampleManifest with ID := "x", Manifest := ⟨"", "body"⟩ } : StoredManifest) = ""
    ∧ (mapStorage.StoreManifest lengthPrefixed
        { sampleManifest with ID := "x", Manifest := ⟨"", "body"⟩ } []).ret ≠ none
    ∧ (mapStorage.StoreManifest lengthPrefixed
        { sampleManifest with ID := "x", Manifest := ⟨"", "body"⟩ } []).db = [] :=
  ⟨rfl,
    (C1_store_rejects_empty_embedded_id lengthPrefixed mapStorage Kind.manifest
      ({ sampleManifest with ID := "x", Manifest := ⟨"", "body"⟩ } : StoredManifest) [] rfl).1,
    (C1_store_rejects_empty_embedded_id lengthPrefixed mapStorage Kind.manifest
      ({ sampleManifest with ID := "x", Manifest := ⟨"", "body"⟩ } : StoredManifest) [] rfl).2.2.2⟩

/-- Claim C1, as stated, fails: `sampleManifest` has an empty top-level `ID` (and
`Manifest.ID = "m1"`), yet `StoreManifest` over the empty concrete store returns nil,
performs a `Write` in the manifest namespace under "m1", and the namespace holds that
key afterwards. -/
theorem C1_counterexample :
    sampleManifest.ID = ""
    ∧ (mapStorage.StoreManifest lengthPrefixed sampleManifest []).ret = none
    ∧ (writes (mapStorage.StoreManifest lengthPrefixed sampleManifest []).trace).map
        (fun c => (c.ns, match c with
          | .Write _ key _ => key
          | _ => "")) = [("manifest", "m1")]
    ∧ (MapDB.store.ReadAll (mapStorage.StoreManifest lengthPrefixed sampleManifest []).db
        manifestNamespace).1.map (fun e => e.1) = ["m1"] := by
  decide

/-- Claim C10: for every record kind, codec, store, state and record, (1) `Store` returns
the missing-ID error without any call on the store exactly when the embedded ID is
empty, and the same holds for the record with any other top-level ID; (2) when the
embedded ID is not empty and serialization succeeds with bytes `b`, the trace of `Store`
is exactly one `Write`, in the namespace of the kind, under the embedded ID, with value
`b`, and `Store` returns the result of that `Write` and leaves the store in the state
that `Write` produced; (3) two records that differ only in their top-level ID are
written under the same namespace and key. -/
theorem C10_store_keyed_by_embedded_id {σ : Type} (json : JSON) (ms : Storage σ) (k : Kind)
    (r : k.Record) (s : σ) :
    (((ms.Store json k r s).ret = some k.missingID ∧ calls (ms.Store json k r s).trace = [])
        ↔ k.embeddedID r = "")
    ∧ (∀ x, ((ms.Store json k (k.withOwnID r x) s).ret = some k.missingID
          ∧ calls (ms.Store json k (k.withOwnID r x) s).trace = []) ↔ k.embeddedID r = "")
    ∧ (∀ b, k.embeddedID r ≠ "" → (json.codec k).Marshal r = .ok b →
        (ms.Store json k r s).trace = [Event.call (Call.Write k.ns (k.embeddedID r) b)]
        ∧ (ms.Store json k r s).ret = (ms.db.Write s k.ns (k.embeddedID r) b).2
        ∧ (ms.Store json k r s).db = (ms.db.Write s k.ns (k.embeddedID r) b).1)
    ∧ (∀ x b b', k.embeddedID r ≠ "" → (json.codec k).Marshal r = .ok b →
        (json.codec k).Marshal (k.withOwnID r x) = .ok b' →
        calls (ms.Store json k r s).trace = [Call.Write k.ns (k.embeddedID r) b]
        ∧ calls (ms.Store json k (k.withOwnID r x) s).trace
            = [Call.Write k.ns (k.embeddedID r) b']) := by
  have key : ∀ r : k.Record,
      ((ms.Store json k r s).ret = some k.missingID ∧ calls (ms.Store json k r s).trace = [])
        ↔ k.embeddedID r = "" := by
    intro r
    constructor
    · rintro ⟨hret, hcalls⟩
      by_contra hid
      cases hm : (json.codec k).Marshal r with
      | error e =>
        obtain ⟨⟨msg, hw⟩, _, _⟩ := Store_of_marshal_error json ms k r s e hid hm
        rw [hw] at hret
        cases k <;> simp [Kind.missingID] at hret
      | ok b =>
        obtain ⟨_, ht, _⟩ := Store_of_marshal_ok json ms k r s b hid hm
        rw [ht] at hcalls
        simp [calls] at hcalls
    · intro hid
      exact ⟨(Store_of_empty_id json ms k r s hid).1, (Store_of_empty_id json ms k r s hid).2.1⟩
  refine ⟨key r, ?_, ?_, ?_⟩
  · intro x
    rw [key (k.withOwnID r x), embeddedID_withOwnID]
  · intro b hid hm
    obtain ⟨h1, h2, h3⟩ := Store_of_marshal_ok json ms k r s b hid hm
    exact ⟨h2, h1, h3⟩
  · intro x b b' hid hm hm'
    have hid' : k.embeddedID (k.withOwnID r x) ≠ "" := by
      rw [embeddedID_withOwnID]
      exact hid
    obtain ⟨_, h2, _⟩ := Store_of_marshal_ok json ms k r s b hid hm
    obtain ⟨_, h2', _⟩ := Store_of_marshal_ok json ms k (k.withOwnID r x) s b' hid' hm'
    rw [h2, h2', embeddedID_withOwnID]
    simp [calls]

/-- A use of C10: `sampleApplication` has top-level ID "a0" and `Application.ID = "a1"`;
`StoreApplication` writes it, and the record with top-level ID "zz", under the key "a1"
of the application namespace. -/
theorem C10_store_keyed_by_embedded_id_witness :
    Kind.embeddedID Kind.application sampleApplication ≠ ""
    ∧ calls (mapStorage.Store lengthPrefixed Kind.application sampleApplication []).trace
        = [Call.Write "application" "a1"
            [2, 97, 48, 2, 109, 49, 13, 100, 105, 100, 58, 107, 101, 121, 58, 97, 108, 105, 99,
              101, 2, 97, 49, 4, 98, 111, 100, 121, 3, 106, 119, 116, 1, 2, 118, 99]]
    ∧ calls (mapStorage.Store lengthPrefixed Kind.application
          (Kind.withOwnID Kind.application sampleApplication "zz") []).trace
        = [Call.Write "application" "a1"
            [2, 122, 122, 2, 109, 49, 13, 100, 105, 100, 58, 107, 101, 121, 58, 97, 108, 105, 99,
              101, 2, 97, 49, 4, 98, 111, 100, 121, 3, 106, 119, 116, 1, 2, 118, 99]] :=
  ⟨by decide,
    (C10_store_keyed_by_embedded_id lengthPrefixed mapStorage Kind.application sampleApplication
      []).2.2.2 "zz" _ _ (by decide) rfl rfl⟩

/-! ## Get -/

/-- When the `Read` succeeds with bytes that are not zero-length and deserialize to `r`,
every `Get` returns `r` and no error. -/
theorem Get_of_read_ok {σ : Type} (json : JSON) (ms : Storage σ) (k : Kind) (id : String)
    (s : σ) (b : Bytes) (r : k.Record) (hr : ms.db.Read s k.ns id = (b, none)) (hb : b ≠ [])
    (hu : (json.codec k).Unmarshal b = .ok r) :
    (ms.Get json k id s).ret = (some r, none) := by
  cases k <;>
    simp_all [Kind.ns, Storage.Get, Storage.GetManifest, Storage.GetApplication,
      Storage.GetResponse, JSON.codec]

/-- When the `Read` succeeds with zero bytes, `GetManifest` returns no record and its
not-found error. -/
theorem GetManifest_of_absent {σ : Type} (json : JSON) (ms : Storage σ) (id : String) (s : σ)
    (hr : ms.db.Read s manifestNamespace id = ([], none)) :
    (ms.GetManifest json id s).ret
      = (none, some (Error.new ("manifest not found with id: " ++ id))) := by
  simp [Storage.GetManifest, hr]

/-- When the `Read` succeeds with zero bytes, `GetApplication` returns no record and its
not-found error. -/
theorem GetApplication_of_absent {σ : Type} (json : JSON) (ms : Storage σ) (id : String) (s : σ)
    (hr : ms.db.Read s applicationNamespace id = ([], none)) :
    (ms.GetApplication json id s).ret
      = (none, some (Error.new
          ("could not get application from storage; application not found with id: " ++ id))) := by
  simp [Storage.GetApplication, hr, util.LoggingNewError]

/-- When the `Read` succeeds with zero bytes, `GetResponse` returns no record and a nil
error: the error it wraps is the nil error of the `Read`. -/
theorem GetResponse_of_absent {σ : Type} (json : JSON) (ms : Storage σ) (id : String) (s : σ)
    (hr : ms.db.Read s responseNamespace id = ([], none)) :
    (ms.GetResponse json id s).ret = (none, none) := by
  simp [Storage.GetResponse, hr, util.LoggingErrorMsg, errors.Wrapf]

/-- A `Get` never changes the state of the store. -/
theorem Get_db {σ : Type} (json : JSON) (ms : Storage σ) (k : Kind) (id : String) (s : σ) :
    (ms.Get json k id s).db = s := by
  cases k <;>
    simp only [Storage.Get, Storage.GetManifest, Storage.GetApplication, Storage.GetResponse] <;>
    split <;> try split <;> try split
  all_goals rfl

/-! ## The concrete store obeys the contract of section 4.1 -/

theorem MapDB.find_after_write (s : MapDB) (k : String × String) (v : Bytes) :
    (s.filter (fun e => decide (e.1 ≠ k)) ++ [(k, v)]).find? (fun e => decide (e.1 = k))
      = some (k, v) := by
  induction s with
  | nil => simp
  | cons a t ih =>
    by_cases h : a.1 = k
    · simp [List.filter_cons, h]
    · simp [List.filter_cons, h]

theorem MapDB.find_after_delete (s : MapDB) (k : String × String) :
    (s.filter (fun e => decide (e.1 ≠ k))).find? (fun e => decide (e.1 = k)) = none := by
  simp [List.find?_eq_none, List.mem_filter]

theorem MapDB.find_other (s : MapDB) (k k' : String × String) (h : k' ≠ k) :
    (s.filter (fun e => decide (e.1 ≠ k))).find? (fun e => decide (e.1 = k'))
      = s.find? (fun e => decide (e.1 = k')) := by
  induction s with
  | nil => simp
  | cons a t ih =>
    by_cases h1 : a.1 = k
    · have h2 : a.1 ≠ k' := fun h3 => h (h3.symm.trans h1)
      rw [List.filter_cons_of_neg (by simp [h1]), List.find?_cons_of_neg _ (by simp [h2])]
      exact ih
    · rw [List.filter_cons_of_pos (by simp [h1])]
      by_cases h2 : a.1 = k'
      · rw [List.find?_cons_of_pos _ (by simp [h2]), List.find?_cons_of_pos _ (by simp [h2])]
      · rw [List.find?_cons_of_neg _ (by simp [h2]), List.find?_cons_of_neg _ (by simp [h2])]
        exact ih

theorem MapDB.filter_ns_other (s : MapDB) (k : String × String) (ns' : String) (h : ns' ≠ k.1) :
    (s.filter (fun e => decide (e.1 ≠ k))).filter (fun e => decide (e.1.1 = ns'))
      = s.filter (fun e => decide (e.1.1 = ns')) := by
  rw [List.filter_filter]
  apply List.filter_congr
  intro e _
  by_cases h1 : e.1.1 = ns'
  · have : e.1 ≠ k := fun h2 => h (by rw [← h1, h2])
    simp [h1, this]
  · simp [h1]

/-- The concrete store behaves as a map. -/
theorem MapDB.behavesAsMap : BehavesAsMap MapDB.store := by
  intro s ns key value
  refine ⟨rfl, ?_⟩
  simp only [MapDB.store]
  rw [MapDB.find_after_write]

/-- The concrete store deletes idempotently. -/
theorem MapDB.deletesIdempotently : DeletesIdempotently MapDB.store := by
  intro s ns key
  refine ⟨rfl, ?_⟩
  simp only [MapDB.store]
  rw [MapDB.find_after_delete]

/-- The namespaces of the concrete store are partitions. -/
theorem MapDB.namespaceLocal : NamespaceLocal MapDB.store := by
  intro s ns key ns' h
  refine ⟨?_, ?_, ?_, ?_⟩
  · intro value key'
    have hk : (ns', key') ≠ (ns, key) := fun h1 => h (by simpa using congrArg Prod.fst h1)
    simp only [MapDB.store, List.find?_append, MapDB.find_other s (ns, key) (ns', key') hk]
    cases List.find? (fun e => decide (e.1 = (ns', key'))) s with
    | some e => simp
    | none => simp [Ne.symm h]
  · intro value
    simp only [MapDB.store, List.filter_append, MapDB.filter_ns_other s (ns, key) ns' h]
    simp [List.filter_cons, Ne.symm h]
  · intro key'
    have hk : (ns', key') ≠ (ns, key) := fun h1 => h (by simpa using congrArg Prod.fst h1)
    simp only [MapDB.store, MapDB.find_other s (ns, key) (ns', key') hk]
  · simp only [MapDB.store, MapDB.filter_ns_other s (ns, key) ns' h]

/-! ## Round trip -/

/-- Claim C2, as amended: for every record kind and every record `r` whose embedded
document ID is not empty, over a store that behaves as a map and a codec that encodes
`r` to bytes `b`, not zero-length as no JSON document is, which it decodes back to `r`:
`Store(r)` returns no error and a following `Get` under the embedded ID of `r` returns
`r` and no error. -/
theorem C2_round_trip_by_embedded_id {σ : Type} (json : JSON) (ms : Storage σ) (k : Kind)
    (r : k.Record) (s : σ) (b : Bytes) (hmap : BehavesAsMap ms.db) (hid : k.embeddedID r ≠ "")
    (hm : (json.codec k).Marshal r = .ok b) (hb : b ≠ [])
    (hu : (json.codec k).Unmarshal b = .ok r) :
    (ms.Store json k r s).ret = none
      ∧ (ms.Get json k (k.embeddedID r) (ms.Store json k r s).db).ret = (some r, none) := by
  obtain ⟨h1, _, h3⟩ := Store_of_marshal_ok json ms k r s b hid hm
  obtain ⟨hw, hr⟩ := hmap s k.ns (k.embeddedID r) b
  refine ⟨h1.trans hw, ?_⟩
  rw [h3]
  exact Get_of_read_ok json ms k (k.embeddedID r) _ b r hr hb hu

/-- A use of C2 as amended: `sampleResponse` stored over the empty concrete store is read
back by `GetResponse` under its `Response.ID`. -/
theorem C2_round_trip_by_embedded_id_witness :
    BehavesAsMap mapStorage.db
    ∧ Kind.embeddedID Kind.response sampleResponse = "r1"
    ∧ (mapStorage.Store lengthPrefixed Kind.response sampleResponse []).ret = none
    ∧ (mapStorage.Get lengthPrefixed Kind.response "r1"
        (mapStorage.Store lengthPrefixed Kind.response sampleResponse []).db).ret
        = (some sampleResponse, none) :=
  ⟨MapDB.behavesAsMap, rfl,
    C2_round_trip_by_embedded_id lengthPrefixed mapStorage Kind.response sampleResponse [] _
      MapDB.behavesAsMap (by decide) rfl (by decide) rfl⟩

/-- Claim C2, as stated, fails: `sampleApplication` has the non-empty top-level ID "a0"
(and `Application.ID = "a1"`); over the empty concrete store, which behaves as a map, and
the length-prefixed codec, which round-trips the record, `StoreApplication` succeeds and
the following `GetApplication("a0")` returns no record and a not-found error. -/
theorem C2_counterexample :
    sampleApplication.ID = "a0"
    ∧ (lengthPrefixed.application.Marshal sampleApplication).toOption.bind
        (fun b => (lengthPrefixed.application.Unmarshal b).toOption) = some sampleApplication
    ∧ (mapStorage.StoreApplication lengthPrefixed sampleApplication []).ret = none
    ∧ (mapStorage.GetApplication lengthPrefixed sampleApplication.ID
        (mapStorage.StoreApplication lengthPrefixed sampleApplication []).db).ret
        = (none, some (Error.new
            "could not get application from storage; application not found with id: a0")) := by
  decide

/-! ## Not found -/

/-- Claim C3, the failing case: over the empty concrete store the `Read` of the key "r1" in
the response namespace succeeds with zero bytes, and `GetResponse("r1")` returns no
record and a nil error, where `GetManifest("r1")` and `GetApplication("r1")` over the
same store return a non-nil error. -/
theorem C3_GetResponse_absent_returns_nil_error :
    MapDB.store.Read [] responseNamespace "r1" = ([], none)
    ∧ (mapStorage.GetResponse lengthPrefixed "r1" []).ret = (none, none)
    ∧ (mapStorage.GetManifest lengthPrefixed "r1" []).ret.2 ≠ none
    ∧ (mapStorage.GetApplication lengthPrefixed "r1" []).ret.2 ≠ none := by
  decide

/-! ## Bulk reads -/

theorem calls_append (a b : List Event) : calls (a ++ b) = calls a ++ calls b := by
  induction a with
  | nil => rfl
  | cons e t ih => cases e <;> simp [calls, ih]

theorem logs_append (a b : List Event) : logs (a ++ b) = logs a ++ logs b := by
  induction a with
  | nil => rfl
  | cons e t ih => cases e <;> simp [logs, ih]

theorem calls_map_log (l : List Entry) : calls (l.map Event.log) = [] := by
  induction l with
  | nil => rfl
  | cons e t ih => simpa [calls] using ih

theorem logs_map_log (l : List Entry) : logs (l.map Event.log) = l := by
  induction l with
  | nil => rfl
  | cons e t ih => simpa [logs] using ih

theorem logs_call_cons_map_log (c : Call) (l : List Entry) :
    logs ([Event.call c] ++ l.map Event.log) = l := by
  rw [logs_append, logs_map_log]
  rfl

theorem decoded_cons_ok {T : Type} (c : Codec T) (e : String × Bytes) (rest : List (String × Bytes))
    (v : T) (h : c.Unmarshal e.2 = .ok v) : decoded c (e :: rest) = v :: decoded c rest := by
  simp [decoded, List.filterMap_cons, h]

theorem decoded_cons_error {T : Type} (c : Codec T) (e : String × Bytes)
    (rest : List (String × Bytes)) (err : Error) (h : c.Unmarshal e.2 = .error err) :
    decoded c (e :: rest) = decoded c rest := by
  simp [decoded, List.filterMap_cons, h]

theorem skipped_cons_ok {T : Type} (c : Codec T) (e : String × Bytes) (rest : List (String × Bytes))
    (v : T) (h : c.Unmarshal e.2 = .ok v) : skipped c (e :: rest) = skipped c rest := by
  simp [skipped, List.filter_cons, h]

theorem skipped_cons_error {T : Type} (c : Codec T) (e : String × Bytes)
    (rest : List (String × Bytes)) (err : Error) (h : c.Unmarshal e.2 = .error err) :
    skipped c (e :: rest) = e :: skipped c rest := by
  simp [skipped, List.filter_cons, h]

/-- Every entry is either decoded or skipped. -/
theorem decoded_length_add_skipped {T : Type} (c : Codec T) (entries : List (String × Bytes)) :
    (decoded c entries).length + (skipped c entries).length = entries.length := by
  induction entries with
  | nil => rfl
  | cons e rest ih =>
    cases hu : c.Unmarshal e.2 with
    | ok v =>
      rw [decoded_cons_ok c e rest v hu, skipped_cons_ok c e rest v hu]
      simp only [List.length_cons]
      omega
    | error err =>
      rw [decoded_cons_error c e rest err hu, skipped_cons_error c e rest err hu]
      simp only [List.length_cons]
      omega

/-- The loop of `GetManifests` appends the decodable entries and logs nothing. -/
theorem GetManifests_loop_eq (json : JSON) (entries : List (String × Bytes))
    (stored : List StoredManifest) (t : List Event) :
    Storage.GetManifests.loop json entries (stored, t)
      = (stored ++ decoded json.manifest entries, t) := by
  induction entries generalizing stored with
  | nil => simp [Storage.GetManifests.loop, decoded]
  | cons e rest ih =>
    obtain ⟨key, bytes⟩ := e
    cases h : json.manifest.Unmarshal bytes with
    | ok v =>
      rw [Storage.GetManifests.loop]
      simp only [h]
      rw [ih, decoded_cons_ok json.manifest (key, bytes) rest v h]
      simp
    | error err =>
      rw [Storage.GetManifests.loop]
      simp only [h]
      rw [ih, decoded_cons_error json.manifest (key, bytes) rest err h]

/-- The loop of `GetApplications` appends the decodable entries and logs each skipped entry
once, in the order of the iteration. -/
theorem GetApplications_loop_eq (json : JSON) (entries : List (String × Bytes))
    (stored : List StoredApplication) (t : List Event) :
    Storage.GetApplications.loop json entries (stored, t)
      = (stored ++ decoded json.application entries,
          t ++ ((skipped json.application entries).map
            (applicationSkipEntry json.application)).map Event.log) := by
  induction entries generalizing stored t with
  | nil => simp [Storage.GetApplications.loop, decoded, skipped]
  | cons e rest ih =>
    obtain ⟨key, bytes⟩ := e
    cases h : json.application.Unmarshal bytes with
    | ok v =>
      rw [Storage.GetApplications.loop]
      simp only [h]
      rw [ih, decoded_cons_ok json.application (key, bytes) rest v h,
        skipped_cons_ok json.application (key, bytes) rest v h]
      simp
    | error err =>
      rw [Storage.GetApplications.loop]
      simp only [h]
      rw [ih, decoded_cons_error json.application (key, bytes) rest err h,
        skipped_cons_error json.application (key, bytes) rest err h]
      simp [applicationSkipEntry, h]

/-- The loop of `GetResponses` appends the decodable entries and logs each skipped entry
once, in the order of the iteration. -/
theorem GetResponses_loop_eq (json : JSON) (entries : List (String × Bytes))
    (stored : List StoredResponse) (t : List Event) :
    Storage.GetResponses.loop json entries (stored, t)
      = (stored ++ decoded json.response entries,
          t ++ ((skipped json.response entries).map
            (responseSkipEntry json.response)).map Event.log) := by
  induction entries generalizing stored t with
  | nil => simp [Storage.GetResponses.loop, decoded, skipped]
  | cons e rest ih =>
    obtain ⟨key, bytes⟩ := e
    cases h : json.response.Unmarshal bytes with
    | ok v =>
      rw [Storage.GetResponses.loop]
      simp only [h]
      rw [ih, decoded_cons_ok json.response (key, bytes) rest v h,
        skipped_cons_ok json.response (key, bytes) rest v h]
      simp
    | error err =>
      rw [Storage.GetResponses.loop]
      simp only [h]
      rw [ih, decoded_cons_error json.response (key, bytes) rest err h,
        skipped_cons_error json.response (key, bytes) rest err h]
      simp [responseSkipEntry, h]

/-- When `ReadAll` succeeds, every bulk read returns no error and the decoded values of
the decodable entries, in the order of the iteration. -/
theorem GetAll_of_readAll_ok {σ : Type} (json : JSON) (ms : Storage σ) (k : Kind) (s : σ)
    (entries : List (String × Bytes)) (h : ms.db.ReadAll s k.ns = (entries, none)) :
    (ms.GetAll json k s).ret = (decoded (json.codec k) entries, none) := by
  cases k
  · simp only [Kind.ns] at h
    simp only [Storage.GetAll, Storage.GetManifests, h, JSON.codec]
    split
    · rename_i h0
      rw [List.length_eq_zero.mp h0]
      rfl
    · rw [GetManifests_loop_eq]
      rfl
  · simp only [Kind.ns] at h
    simp only [Storage.GetAll, Storage.GetApplications, h, JSON.codec]
    split
    · rename_i h0
      rw [List.length_eq_zero.mp h0]
      rfl
    · rw [GetApplications_loop_eq]
      rfl
  · simp only [Kind.ns] at h
    simp only [Storage.GetAll, Storage.GetResponses, h, JSON.codec]
    split
    · rename_i h0
      rw [List.length_eq_zero.mp h0]
      rfl
    · rw [GetResponses_loop_eq]
      rfl

/-- Claim C4: for every record kind, codec, store and state, whenever `ReadAll` of the
namespace succeeds with entries `entries`, the bulk read returns no error and the
decoded values of exactly the decodable entries, each once, in the order of the
iteration; hence for any listing of the same entries in another order the result is a
permutation of the decoded values of that listing; and when there are no entries, or
none decodes, the result is the empty sequence with no error. -/
theorem C4_bulk_read_returns_decodable {σ : Type} (json : JSON) (ms : Storage σ) (k : Kind)
    (s : σ) (entries : List (String × Bytes)) (h : ms.db.ReadAll s k.ns = (entries, none)) :
    (ms.GetAll json k s).ret.2 = none
    ∧ (ms.GetAll json k s).ret.1 = decoded (json.codec k) entries
    ∧ (∀ listing : List (String × Bytes), entries.Perm listing →
        ((ms.GetAll json k s).ret.1).Perm (decoded (json.codec k) listing))
    ∧ ((ms.GetAll json k s).ret.1).length + (skipped (json.codec k) entries).length
        = entries.length
    ∧ (entries = [] → (ms.GetAll json k s).ret = ([], none))
    ∧ ((∀ e ∈ entries, ∀ v, (json.codec k).Unmarshal e.2 ≠ .ok v) →
        (ms.GetAll json k s).ret = ([], none)) := by
  have hret := GetAll_of_readAll_ok json ms k s entries h
  rw [hret]
  refine ⟨rfl, rfl, ?_, ?_, ?_, ?_⟩
  · intro listing hp
    exact hp.filterMap _
  · exact decoded_length_add_skipped (json.codec k) entries
  · intro he
    rw [he]
    rfl
  · intro hall
    have : decoded (json.codec k) entries = [] := by
      simp only [decoded, List.filterMap_eq_nil_iff]
      intro e he
      cases hu : (json.codec k).Unmarshal e.2 with
      | ok v => exact absurd hu (hall e he v)
      | error err => rfl
    rw [this]

/-- A use of C4: in `corruptDB` the manifest namespace holds one malformed entry and the
entry of `sampleManifest`; `GetManifests` returns `sampleManifest` alone and no error. -/
theorem C4_bulk_read_returns_decodable_witness :
    (MapDB.store.ReadAll corruptDB manifestNamespace).1.map (fun e => e.1) = ["bad", "m1"]
    ∧ (mapStorage.GetAll lengthPrefixed Kind.manifest corruptDB).ret.2 = none
    ∧ (mapStorage.GetAll lengthPrefixed Kind.manifest corruptDB).ret.1
        = decoded lengthPrefixed.manifest (MapDB.store.ReadAll corruptDB manifestNamespace).1
    ∧ decoded lengthPrefixed.manifest (MapDB.store.ReadAll corruptDB manifestNamespace).1
        = [sampleManifest] :=
  ⟨by decide,
    (C4_bulk_read_returns_decodable lengthPrefixed mapStorage Kind.manifest corruptDB
      (MapDB.store.ReadAll corruptDB manifestNamespace).1 rfl).1,
    (C4_bulk_read_returns_decodable lengthPrefixed mapStorage Kind.manifest corruptDB
      (MapDB.store.ReadAll corruptDB manifestNamespace).1 rfl).2.1,
    by decide⟩

/-! ## Logging of skipped entries -/

/-- A successful `GetApplications` emits, at error level, exactly one message per skipped
entry, with the key of the entry and the decode error. -/
theorem GetApplications_errorLogs {σ : Type} (json : JSON) (ms : Storage σ) (s : σ)
    (entries : List (String × Bytes))
    (h : ms.db.ReadAll s applicationNamespace = (entries, none)) :
    errorLogs (ms.GetApplications json s).trace
      = (skipped json.application entries).map (applicationSkipEntry json.application) := by
  simp only [Storage.GetApplications, h]
  split
  · rename_i h0
    rw [List.length_eq_zero.mp h0]
    rfl
  · rw [GetApplications_loop_eq]
    simp only [errorLogs]
    rw [logs_call_cons_map_log]
    apply List.filter_eq_self.mpr
    intro e he
    obtain ⟨x, _, rfl⟩ := List.mem_map.mp he
    unfold applicationSkipEntry
    split <;> simp

/-- A successful `GetResponses` emits, at error level, exactly one message per skipped
entry, with the key of the entry and the decode error. -/
theorem GetResponses_errorLogs {σ : Type} (json : JSON) (ms : Storage σ) (s : σ)
    (entries : List (String × Bytes))
    (h : ms.db.ReadAll s responseNamespace = (entries, none)) :
    errorLogs (ms.GetResponses json s).trace
      = (skipped json.response entries).map (responseSkipEntry json.response) := by
  simp only [Storage.GetResponses, h]
  split
  · rename_i h0
    rw [List.length_eq_zero.mp h0]
    rfl
  · rw [GetResponses_loop_eq]
    simp only [errorLogs]
    rw [logs_call_cons_map_log]
    apply List.filter_eq_self.mpr
    intro e he
    obtain ⟨x, _, rfl⟩ := List.mem_map.mp he
    unfold responseSkipEntry
    split <;> simp

/-- A successful `GetManifests` emits no message at error level, whatever it skips. -/
theorem GetManifests_errorLogs {σ : Type} (json : JSON) (ms : Storage σ) (s : σ)
    (entries : List (String × Bytes))
    (h : ms.db.ReadAll s manifestNamespace = (entries, none)) :
    errorLogs (ms.GetManifests json s).trace = [] := by
  simp only [Storage.GetManifests, h]
  split
  · rfl
  · rw [GetManifests_loop_eq]
    rfl

/-- Claim C5, the failing case: in `corruptDB` each namespace holds the malformed entry
"bad".  `GetManifests` succeeds, skips that entry and emits no error-level message, so
zero messages stand against one skipped entry; `GetApplications` and `GetResponses`
over the same state emit one error-level message each, with the key "bad" and the
decode error. -/
theorem C5_GetManifests_skips_silently :
    skipped lengthPrefixed.manifest (MapDB.store.ReadAll corruptDB manifestNamespace).1
      = [("bad", [99])]
    ∧ (mapStorage.GetManifests lengthPrefixed corruptDB).ret = ([sampleManifest], none)
    ∧ errorLogs (mapStorage.GetManifests lengthPrefixed corruptDB).trace = []
    ∧ logs (mapStorage.GetManifests lengthPrefixed corruptDB).trace = []
    ∧ errorLogs (mapStorage.GetApplications lengthPrefixed corruptDB).trace
        = [⟨Level.error, some malformed, "could not unmarshal stored application: bad"⟩]
    ∧ errorLogs (mapStorage.GetResponses lengthPrefixed corruptDB).trace
        = [⟨Level.error, some malformed, "could not unmarshal stored response: bad"⟩] := by
  decide

/-! ## Delete -/

/-- Every `Delete` makes one call, the `Delete` of the store in the namespace of the kind,
leaves the store in the state that call produced, and returns an error exactly when that
call does. -/
theorem Delete_spec {σ : Type} (ms : Storage σ) (k : Kind) (id : String) (s : σ) :
    ((ms.Delete k id s).ret ≠ none ↔ (ms.db.Delete s k.ns id).2 ≠ none)
    ∧ (ms.Delete k id s).db = (ms.db.Delete s k.ns id).1
    ∧ calls (ms.Delete k id s).trace = [Call.Delete k.ns id] := by
  cases k <;>
    simp only [Storage.Delete, Storage.DeleteManifest, Storage.DeleteApplication,
      Storage.DeleteResponse, Kind.ns] <;>
    split <;> rename_i h <;>
    simp [h, util.LoggingErrorMsg, errors.Wrapf, calls]

/-- Over a store that deletes idempotently, a `Delete` returns no error in every state,
so also for an absent id and after an earlier `Delete` of the same id. -/
theorem Delete_idempotent {σ : Type} (ms : Storage σ) (k : Kind) (id : String) (s : σ)
    (hd : DeletesIdempotently ms.db) :
    (ms.Delete k id s).ret = none ∧ (ms.Delete k id (ms.Delete k id s).db).ret = none := by
  have h : ∀ s, (ms.Delete k id s).ret = none := by
    intro s
    by_contra hne
    exact ((Delete_spec ms k id s).1.mp hne) (hd s k.ns id).1
  exact ⟨h s, h _⟩

/-- Claim C6, the failing case: `responseDB` holds `sampleResponse` under "r1".
`DeleteResponse("r1")` returns no error and empties the store, a second
`DeleteResponse("r1")` returns no error, and the `GetResponse("r1")` that follows
returns no record and a nil error: it does not report not found.  The same steps for a
manifest end in the not-found error of `GetManifest`. -/
theorem C6_GetResponse_after_delete_returns_nil_error :
    (mapStorage.GetResponse lengthPrefixed "r1" responseDB).ret = (some sampleResponse, none)
    ∧ (mapStorage.DeleteResponse "r1" responseDB).ret = none
    ∧ (mapStorage.DeleteResponse "r1" responseDB).db = []
    ∧ (mapStorage.DeleteResponse "r1" (mapStorage.DeleteResponse "r1" responseDB).db).ret = none
    ∧ (mapStorage.GetResponse lengthPrefixed "r1"
        (mapStorage.DeleteResponse "r1" responseDB).db).ret = (none, none)
    ∧ (mapStorage.GetManifest lengthPrefixed "m1"
        (mapStorage.DeleteManifest "m1" corruptDB).db).ret
        = (none, some (Error.new "manifest not found with id: m1")) := by
  decide

/-! ## Namespace isolation -/

theorem Kind.ns_ne (k k' : Kind) (h : k ≠ k') : k'.ns ≠ k.ns := by
  cases k <;> cases k' <;> first | exact absurd rfl h | decide

/-- The calls of a `Store`: none, or one `Write` in the namespace of the kind under the
embedded ID; the state afterwards is the state before, or the state that `Write` made. -/
theorem Store_calls {σ : Type} (json : JSON) (ms : Storage σ) (k : Kind) (r : k.Record) (s : σ) :
    (calls (ms.Store json k r s).trace = [] ∧ (ms.Store json k r s).db = s)
    ∨ ∃ b, calls (ms.Store json k r s).trace = [Call.Write k.ns (k.embeddedID r) b]
        ∧ (ms.Store json k r s).db = (ms.db.Write s k.ns (k.embeddedID r) b).1 := by
  by_cases hid : k.embeddedID r = ""
  · exact Or.inl ⟨(Store_of_empty_id json ms k r s hid).2.1, (Store_of_empty_id json ms k r s hid).2.2⟩
  · cases hm : (json.codec k).Marshal r with
    | error e =>
      obtain ⟨_, h2, h3⟩ := Store_of_marshal_error json ms k r s e hid hm
      exact Or.inl ⟨h2, h3⟩
    | ok b =>
      obtain ⟨_, h2, h3⟩ := Store_of_marshal_ok json ms k r s b hid hm
      exact Or.inr ⟨b, by rw [h2]; rfl, h3⟩

/-- The one call of a `Get` is the `Read` of the id in the namespace of the kind. -/
theorem Get_calls {σ : Type} (json : JSON) (ms : Storage σ) (k : Kind) (id : String) (s : σ) :
    calls (ms.Get json k id s).trace = [Call.Read k.ns id] := by
  cases k <;>
    simp only [Storage.Get, Storage.GetManifest, Storage.GetApplication, Storage.GetResponse,
      Kind.ns, util.LoggingErrorMsg, util.LoggingNewError] <;>
    split <;> try split <;> try split
  all_goals simp [calls]

/-- The one call of a bulk read is the `ReadAll` of the namespace of the kind. -/
theorem GetAll_calls {σ : Type} (json : JSON) (ms : Storage σ) (k : Kind) (s : σ) :
    calls (ms.GetAll json k s).trace = [Call.ReadAll k.ns] := by
  cases k
  · simp only [Storage.GetAll, Storage.GetManifests, Kind.ns]
    split
    · simp [calls]
    · split
      · simp [calls]
      · rw [GetManifests_loop_eq]
        simp [calls]
  · simp only [Storage.GetAll, Storage.GetApplications, Kind.ns, util.LoggingErrorMsg]
    split
    · simp [calls]
    · split
      · simp [calls]
      · rw [GetApplications_loop_eq]
        simp only [List.nil_append]
        rw [calls_append, calls_map_log]
        rfl
  · simp only [Storage.GetAll, Storage.GetResponses, Kind.ns, util.LoggingErrorMsg]
    split
    · simp [calls]
    · split
      · simp [calls]
      · rw [GetResponses_loop_eq]
        simp only [List.nil_append]
        rw [calls_append, calls_map_log]
        rfl

/-- A `Get` depends on the state of the store only through the `Read` of its id in its
namespace. -/
theorem Get_congr {σ : Type} (json : JSON) (ms : Storage σ) (k : Kind) (id : String) (s s' : σ)
    (h : ms.db.Read s' k.ns id = ms.db.Read s k.ns id) :
    (ms.Get json k id s').ret = (ms.Get json k id s).ret
      ∧ (ms.Get json k id s').trace = (ms.Get json k id s).trace := by
  cases k <;>
    simp only [Kind.ns] at h <;>
    simp only [Storage.Get, Storage.GetManifest, Storage.GetApplication, Storage.GetResponse, h] <;>
    split <;> try split <;> try split
  all_goals exact ⟨rfl, rfl⟩

/-- A bulk read depends on the state of the store only through the `ReadAll` of its
namespace. -/
theorem GetAll_congr {σ : Type} (json : JSON) (ms : Storage σ) (k : Kind) (s s' : σ)
    (h : ms.db.ReadAll s' k.ns = ms.db.ReadAll s k.ns) :
    (ms.GetAll json k s').ret = (ms.GetAll json k s).ret
      ∧ (ms.GetAll json k s').trace = (ms.GetAll json k s).trace := by
  cases k <;>
    simp only [Kind.ns] at h <;>
    simp only [Storage.GetAll, Storage.GetManifests, Storage.GetApplications,
      Storage.GetResponses, h] <;>
    split <;> try split
  all_goals exact ⟨rfl, rfl⟩

/-- Claim C7: (1) the three namespaces are pairwise distinct; (2) every call that a
`Store`, `Get`, `GetAll` or `Delete` of a record kind makes on the store addresses the
namespace of that kind; (3) over a store whose namespaces are partitions, for every state,
all ids and two different kinds `k` and `k'`, the results of `Get` and `GetAll` of kind
`k'` are the same after a `Store` or a `Delete` of kind `k` as before it, whatever the
ids, equal or not. -/
theorem C7_namespace_isolation {σ : Type} (json : JSON) (ms : Storage σ)
    (hloc : NamespaceLocal ms.db) :
    (manifestNamespace ≠ applicationNamespace ∧ manifestNamespace ≠ responseNamespace
      ∧ applicationNamespace ≠ responseNamespace)
    ∧ (∀ (k : Kind) (r : k.Record) (id : String) (s : σ) (c : Call),
        c ∈ calls (ms.Store json k r s).trace ++ calls (ms.Get json k id s).trace
            ++ calls (ms.GetAll json k s).trace ++ calls (ms.Delete k id s).trace →
          c.ns = k.ns)
    ∧ (∀ (k k' : Kind), k ≠ k' → ∀ (r : k.Record) (id id' : String) (s : σ),
        (ms.Get json k' id' (ms.Store json k r s).db).ret = (ms.Get json k' id' s).ret
        ∧ (ms.GetAll json k' (ms.Store json k r s).db).ret = (ms.GetAll json k' s).ret
        ∧ (ms.Get json k' id' (ms.Delete k id s).db).ret = (ms.Get json k' id' s).ret
        ∧ (ms.GetAll json k' (ms.Delete k id s).db).ret = (ms.GetAll json k' s).ret) := by
  refine ⟨⟨by decide, by decide, by decide⟩, ?_, ?_⟩
  · intro k r id s c hc
    simp only [List.mem_append] at hc
    rcases hc with ((hc | hc) | hc) | hc
    · rcases Store_calls json ms k r s with ⟨h, _⟩ | ⟨b, h, _⟩
      · rw [h] at hc
        cases hc
      · rw [h] at hc
        rw [List.mem_singleton.mp hc]
        rfl
    · rw [Get_calls] at hc
      rw [List.mem_singleton.mp hc]
      rfl
    · rw [GetAll_calls] at hc
      rw [List.mem_singleton.mp hc]
      rfl
    · rw [(Delete_spec ms k id s).2.2] at hc
      rw [List.mem_singleton.mp hc]
      rfl
  · intro k k' hk r id id' s
    have hns := Kind.ns_ne k k' hk
    have hd := (Delete_spec ms k id s).2.1
    obtain ⟨_, _, hdr, hda⟩ := hloc s k.ns id k'.ns hns
    refine ⟨?_, ?_, ?_, ?_⟩
    · rcases Store_calls json ms k r s with ⟨_, h⟩ | ⟨b, _, h⟩
      · rw [h]
      · rw [h]
        exact (Get_congr json ms k' id' s _
          ((hloc s k.ns (k.embeddedID r) k'.ns hns).1 b id')).1
    · rcases Store_calls json ms k r s with ⟨_, h⟩ | ⟨b, _, h⟩
      · rw [h]
      · rw [h]
        exact (GetAll_congr json ms k' s _
          ((hloc s k.ns (k.embeddedID r) k'.ns hns).2.1 b)).1
    · rw [hd]
      exact (Get_congr json ms k' id' s _ (hdr id')).1
    · rw [hd]
      exact (GetAll_congr json ms k' s _ hda).1

/-- A use of C7: over the concrete store, `StoreApplication` of `sampleApplication` and
`DeleteApplication("r1")` leave `GetResponse("r1")` on `responseDB` as it was, and
`DeleteManifest("bad")` leaves `GetApplications` on `corruptDB` as it was. -/
theorem C7_namespace_isolation_witness :
    NamespaceLocal mapStorage.db
    ∧ (mapStorage.Get lengthPrefixed Kind.response "r1"
        (mapStorage.Store lengthPrefixed Kind.application sampleApplication responseDB).db).ret
        = (mapStorage.Get lengthPrefixed Kind.response "r1" responseDB).ret
    ∧ (mapStorage.Get lengthPrefixed Kind.response "r1"
        (mapStorage.Delete Kind.application "r1" responseDB).db).ret
        = (mapStorage.Get lengthPrefixed Kind.response "r1" responseDB).ret
    ∧ (mapStorage.GetResponse lengthPrefixed "r1" responseDB).ret
        = (some sampleResponse, none) :=
  ⟨MapDB.namespaceLocal,
    ((C7_namespace_isolation lengthPrefixed mapStorage MapDB.namespaceLocal).2.2
      Kind.application Kind.response (by decide) sampleApplication "r1" "r1" responseDB).1,
    ((C7_namespace_isolation lengthPrefixed mapStorage MapDB.namespaceLocal).2.2
      Kind.application Kind.response (by decide) sampleApplication "r1" "r1" responseDB).2.2.1,
    by decide⟩

/-! ## The DID router and the registry -/

theorem Contains_self (s : String) : Contains s s :=
  ⟨[], [], by simp⟩

/-- Claim C8: `NewDIDRouter` returns no router and a non-nil error for the nil service and
for every service whose declared type is not the DID type; for the nil service the text
of the error contains "service cannot be nil", and for a service of declared type `t`
other than DID it contains "could not create DID router with service type: " followed
by `t`. -/
theorem C8_router_construction_guards :
    ((NewDIDRouter none).1 = none
      ∧ ∃ e, (NewDIDRouter none).2 = some e ∧ Contains e.Error "service cannot be nil")
    ∧ (∀ svc : Service, svc.declaredType ≠ framework.DID →
        (NewDIDRouter (some svc)).1 = none
        ∧ ∃ e, (NewDIDRouter (some svc)).2 = some e
          ∧ Contains e.Error
              ("could not create DID router with service type: " ++ svc.declaredType)) := by
  refine ⟨⟨rfl, Error.new "service cannot be nil", rfl, Contains_self _⟩, ?_⟩
  intro svc h
  have hr : NewDIDRouter (some svc) = (none, some (Error.new
      ("could not create DID router with service type: " ++ svc.declaredType))) := by
    simp [NewDIDRouter, h]
  rw [hr]
  exact ⟨rfl, _, rfl, Contains_self _⟩

/-- A use of C8: the `testService` of the router test declares the type "test"; the router
constructor returns no router and the error of the test. -/
theorem C8_router_construction_guards_witness :
    testService.declaredType ≠ framework.DID
    ∧ (NewDIDRouter (some testService)).1 = none
    ∧ ∃ e, (NewDIDRouter (some testService)).2 = some e
        ∧ Contains e.Error "could not create DID router with service type: test" :=
  ⟨by decide, C8_router_construction_guards.2 testService (by decide)⟩

/-- The registry after a successful `registerAll`: the handlers it had, then one handler
per method of the list, each bound to its method. -/
theorem registerAll_handlers (M : List Method) (svc0 svc : DIDService) (e : GoError)
    (h : DIDService.registerAll svc0 M = (some svc, e)) :
    svc.handlers = svc0.handlers ++ M.map (fun m => (m, (⟨m⟩ : MethodHandler))) := by
  induction M generalizing svc0 with
  | nil =>
    simp only [DIDService.registerAll, Prod.mk.injEq, Option.some.injEq] at h
    simp [h.1]
  | cons m rest ih =>
    rw [DIDService.registerAll] at h
    by_cases hany : svc0.handlers.any (fun e => e.1 == m) = true
    · simp [DIDService.register, hany] at h
    · simp only [DIDService.register, hany] at h
      have := ih _ h
      simp [this]

/-- Looking a method up among handlers that are each registered under their own name. -/
theorem find_registered (M : List Method) (m : Method) :
    (M.map (fun x => (x, (⟨x⟩ : MethodHandler)))).find? (fun e => e.1 == m)
      = if m ∈ M then some (m, ⟨m⟩) else none := by
  induction M with
  | nil => simp
  | cons x rest ih =>
    by_cases hx : x = m
    · simp [hx]
    · have hx' : ¬ m = x := fun h => hx h.symm
      simp only [List.map_cons, List.mem_cons, hx', false_or]
      rw [List.find?_cons_of_neg _ (by simpa using hx)]
      exact ih

/-- Claim C9: for a DID service constructed from a list of methods `M`, `GetHandler(m)`
returns a handler and no error exactly when `m` is in `M`, and that handler is the one
bound to `m`; for every `m` not in `M` it returns no handler and an error whose text
contains "could not get handler for DID method: " followed by `m`. -/
theorem C9_registry_resolution (M : List Method) (svc : DIDService)
    (h : NewDIDService M = (some svc, none)) (m : Method) :
    ((∃ hd, svc.GetHandler m = (some hd, none)) ↔ m ∈ M)
    ∧ (m ∈ M → svc.GetHandler m = (some ⟨m⟩, none))
    ∧ (m ∉ M → (svc.GetHandler m).1 = none
        ∧ ∃ e, (svc.GetHandler m).2 = some e
          ∧ Contains e.Error ("could not get handler for DID method: " ++ m)) := by
  have hh : svc.handlers = M.map (fun x => (x, (⟨x⟩ : MethodHandler))) := by
    unfold NewDIDService at h
    split at h
    · simp at h
    · simpa using registerAll_handlers M ⟨[]⟩ svc none h
  have hin : m ∈ M → svc.GetHandler m = (some ⟨m⟩, none) := by
    intro hm
    unfold DIDService.GetHandler
    rw [hh, find_registered, if_pos hm]
  have hout : m ∉ M → svc.GetHandler m
      = (none, some (Error.new ("could not get handler for DID method: " ++ m))) := by
    intro hm
    unfold DIDService.GetHandler
    rw [hh, find_registered, if_neg hm]
  refine ⟨⟨?_, fun hm => ⟨_, hin hm⟩⟩, hin, ?_⟩
  · rintro ⟨hd, hg⟩
    by_contra hm
    rw [hout hm] at hg
    simp at hg
  · intro hm
    rw [hout hm]
    exact ⟨rfl, _, rfl, Contains_self _⟩

/-- A use of C9, the case of the router test: the service constructed with the method
"key" alone resolves "key" and fails for "bad" with the error of the test. -/
theorem C9_registry_resolution_witness :
    NewDIDService [KeyMethod] = (some ⟨[("key", ⟨"key"⟩)]⟩, none)
    ∧ (DIDService.GetHandler ⟨[("key", ⟨"key"⟩)]⟩ "key") = (some ⟨"key"⟩, none)
    ∧ (DIDService.GetHandler ⟨[("key", ⟨"key"⟩)]⟩ "bad").1 = none
    ∧ ∃ e, (DIDService.GetHandler ⟨[("key", ⟨"key"⟩)]⟩ "bad").2 = some e
        ∧ Contains e.Error "could not get handler for DID method: bad" :=
  ⟨by decide,
    (C9_registry_resolution [KeyMethod] ⟨[("key", ⟨"key"⟩)]⟩ (by decide) "key").2.1 (by decide),
    (C9_registry_resolution [KeyMethod] ⟨[("key", ⟨"key"⟩)]⟩ (by decide) "bad").2.2 (by decide)⟩

end SSI
